import Mathlib

/-!
Verification of the AIO analyzer's rate-limited batch validation engine and
staged pipeline orchestrator, as a shallow embedding of the Python sources
`src/utils/serp_handler.py`, `backend/aio_analyzer/apps/analysis/tasks.py` and
`backend/aio_analyzer/apps/analysis/models.py`.
-/

namespace AIO

/-! ## Data model of `serp_handler.py` -/

/-- Embedding of the `SERPResult` dataclass (`serp_handler.py`, lines 21-28). -/
structure SERPResult where
  keyword : String
  has_aio : Bool
  aio_content : Option String := none
  total_results : Nat := 0
  error : Option String := none
  deriving Repr, DecidableEq

/-- Configuration fields of `SERPHandler` relevant to the request loop
(`serp_handler.py`, lines 53-60): `retry_attempts` and `retry_delay` from the
`performance` section.  `Retry-After` header values pass through `int(...)`,
and the configured `retry_delay` values in this repository are integers, so
delays are modelled as `Nat` seconds. -/
structure SerpConfig where
  retry_attempts : Nat
  retry_delay : Nat
  deriving Repr, DecidableEq

/-- One iteration of the HTTP attempt loop in `SERPHandler._make_serp_request`
(`serp_handler.py`, lines 117-142) observes exactly one of these events:
a 200 response with parsed JSON (abstracted to the already-parsed
`SERPResult`, since `_parse_serp_response` is total and no claim concerns the
parsing precedence), a 429 response whose optional `Retry-After` header was
`int`-parsed, another HTTP status, an `asyncio.TimeoutError`, or another
exception. -/
inductive Attempt where
  | ok (parsed : SERPResult)
  | rateLimited (retryAfter : Option Nat)
  | httpOther (status : Nat)
  | timeoutExn
  | otherExn
  deriving Repr, DecidableEq

/-- The body of the retry loop of `_make_serp_request` (`serp_handler.py`,
lines 117-142, the `serper` branch; the other-provider branch at lines
153-177 is structurally identical).  Given the attempt events in order, it
returns the parsed result of the first 200 response (or `none` if every
attempt fails) together with the list of `asyncio.sleep` durations performed:
a 429 sleeps the `Retry-After` header value, defaulting to `retry_delay`
(line 130-132); every non-returning iteration except the last additionally
sleeps the linear backoff `retry_delay * (attempt + 1)` (lines 141-142). -/
def requestAttempts (cfg : SerpConfig) (i : Nat) :
    List Attempt → Option SERPResult × List Nat
  | [] => (none, [])
  | a :: rest =>
    let backoff : List Nat :=
      if i < cfg.retry_attempts - 1 then [cfg.retry_delay * (i + 1)] else []
    match a with
    | .ok parsed => (some parsed, [])
    | .rateLimited h =>
      let next := requestAttempts cfg (i + 1) rest
      (next.1, (h.getD cfg.retry_delay :: backoff) ++ next.2)
    | _ =>
      let next := requestAttempts cfg (i + 1) rest
      (next.1, backoff ++ next.2)

/-- The fallback result built after the retry loop exhausts all attempts
(`serp_handler.py`, lines 179-183): `has_aio = False` and the error message
set. -/
def exhaustedResult (cfg : SerpConfig) (keyword : String) : SERPResult :=
  { keyword := keyword
    has_aio := false
    error := some ("request failed after " ++ toString cfg.retry_attempts ++ " retries") }

/-- Embedding of `SERPHandler._make_serp_request` for one keyword
(`serp_handler.py`, lines 89-183), given the sequence of per-attempt HTTP
events (the loop runs `range(retry_attempts)`, hence at most
`cfg.retry_attempts` events are consumed).  Returns the `SERPResult` and the
retry-related sleep durations. -/
def make_serp_request (cfg : SerpConfig) (keyword : String)
    (attempts : List Attempt) : SERPResult × List Nat :=
  let r := requestAttempts cfg 0 (attempts.take cfg.retry_attempts)
  (r.1.getD (exhaustedResult cfg keyword), r.2)

/-! ## Python-dict association list

`batch_validate_aio` accumulates its results in a Python `dict`
(`results[keyword] = has_aio`).  We embed the dict as an association list in
insertion order: assigning to an existing key replaces its value in place,
assigning a fresh key appends it. -/

/-- Assignment `m[k] = v` on a Python dict: an existing key keeps its
position and gets the new value, a fresh key is appended. -/
def dictInsert (m : List (String × Bool)) (k : String) (v : Bool) :
    List (String × Bool) :=
  match m with
  | [] => [(k, v)]
  | (k₁, v₁) :: t => if k₁ = k then (k, v) :: t else (k₁, v₁) :: dictInsert t k v

/-- Lookup `m.get(k)` on a Python dict. -/
def dictLookup (m : List (String × Bool)) (k : String) : Option Bool :=
  match m with
  | [] => none
  | (k₁, v) :: m₁ => if k₁ = k then some v else dictLookup m₁ k

/-- Lookup with default: `m.get(k, false)`. -/
def dictGetD (m : List (String × Bool)) (k : String) : Bool :=
  (dictLookup m k).getD false

/-! ## Embedding of `SERPHandler.batch_validate_aio` -/

/-- Embedding of `SERPHandler.batch_validate_aio` (`serp_handler.py`, lines
277-350).  The probe argument abstracts `_make_serp_request session keyword`
for the task spawned for list position `i` (each element of `keywords` gets
its own `process_keyword` task, line 325).  `process_keyword` always returns
`(keyword, result.has_aio)` — `_make_serp_request` catches per-attempt
exceptions and returns an error `SERPResult` instead of raising — so the
`isinstance(task_result, Exception)` branch of the result loop (line 332)
does not fire, and the dict receives one assignment per task in task order
(lines 331-336).  Returns the result dict together with the probe-invocation
log (one `(index, keyword)` pair per spawned task; the empty list spawns no
tasks and returns the empty dict at line 287-289). -/
def batch_validate_run (keywords : List String)
    (probe : Nat → String → SERPResult) :
    List (String × Bool) × List (Nat × String) :=
  if keywords = [] then ([], [])
  else
    (keywords.enum.foldl
      (fun m p => dictInsert m p.2 (probe p.1 p.2).has_aio) [],
     keywords.enum)

/-- The value `batch_validate_aio` returns: the keyword-to-`has_aio` dict. -/
def batch_validate_aio (keywords : List String)
    (probe : Nat → String → SERPResult) : List (String × Bool) :=
  (batch_validate_run keywords probe).1

/-! ## Result aggregation formula -/

/-- The percentage computation of the validation aggregation
(`backend/aio_analyzer/apps/analysis/tasks.py`, line 445:
`(aio_count / verified_count * 100) if verified_count > 0 else 0`;
the same formula appears in `report_generator.py` line 132 and
`aio_analyzer.py` line 269).  Arithmetic is modelled exactly over `ℚ`. -/
def aio_percentage (aio_count verified_count : Nat) : ℚ :=
  if verified_count > 0 then (aio_count : ℚ) / (verified_count : ℚ) * 100 else 0

/-- The index of the last occurrence of `w` in `keywords` (the task whose
dict assignment is processed last in the result loop of
`batch_validate_aio`). -/
def lastOccurrenceIdx (keywords : List String) (w : String) : Option Nat :=
  (keywords.enum.reverse.find? (fun p => p.2 == w)).map Prod.fst

/-- Sample parsed 200-response result, used as a concrete probe outcome. -/
def sampleOk : SERPResult :=
  { keyword := "kw", has_aio := true }

/-- Probe whose outcome depends on the task index, used to exhibit
last-occurrence-wins behaviour on duplicated keywords. -/
def c10Probe : Nat → String → SERPResult :=
  fun i k => { keyword := k, has_aio := decide (i = 2) }

/-- Concrete configuration: two attempts, one-second base delay (the
`performance` defaults used by the Django validation task are of this
shape). -/
def c5Cfg : SerpConfig := { retry_attempts := 2, retry_delay := 1 }

/-- A probe history that is rate-limited on every attempt, up to and beyond
the retry budget. -/
def c5Attempts : List Attempt := [.rateLimited none, .rateLimited (some 7)]

/-- Probe for a two-keyword batch in which keyword "fail" exhausts its
retries and keyword "ok" succeeds. -/
def c5Probe : Nat → String → SERPResult :=
  fun _ k => if k = "fail" then (make_serp_request c5Cfg "fail" c5Attempts).1 else sampleOk

/-! ## Interleaving model of the asyncio execution inside `batch_validate_aio`

`batch_validate_aio` runs one `process_keyword` coroutine per keyword on a
single-threaded cooperative event loop.  Each coroutine executes
`_make_serp_request` (`serp_handler.py`, lines 102-103):

  `async with self._semaphore:` — wait for one of the `concurrent_requests`
  semaphore slots, then
  `await self._rate_limit_delay()` — read `self._last_request_time`, and if
  less than `1/rate_limit` elapsed, `await asyncio.sleep(...)` (a suspension
  point at which other coroutines run) and only *after* waking write
  `self._last_request_time`, then issue the HTTP request.

Control can only change hands at `await` points, so each model step below is
one maximal uninterrupted slice of a coroutine.  Time is modelled exactly
over `ℚ`; `time.time()` reads the single global clock `now`. -/

/-- Scheduling state of one `process_keyword` coroutine: not yet admitted by
the semaphore; admitted and about to run `_rate_limit_delay`; suspended in
`asyncio.sleep` until `wake`; HTTP request in flight; finished (semaphore
slot released). -/
inductive MPhase where
  | ready
  | acquired
  | sleeping (wake : ℚ)
  | inFlight
  | done
  deriving Repr, DecidableEq

/-- One scheduler step: let the clock advance, or run the next slice of
coroutine `i` (semaphore acquisition, the `_rate_limit_delay` body, resuming
from `asyncio.sleep`, or finishing the request and releasing the slot). -/
inductive MAction where
  | advance (t : ℚ)
  | acquire (i : Nat)
  | pace (i : Nat)
  | wake (i : Nat)
  | finish (i : Nat)
  deriving Repr, DecidableEq

/-- Global state: the clock, the shared `SERPHandler._last_request_time`
(initialised to `0` at line 67), the semaphore counter (initialised to
`concurrent_requests` at line 66), the coroutine phases, and the log of
probe-start events `(task, time)` (the moments `session.post` is issued). -/
structure MState where
  now : ℚ
  last : ℚ
  sem : Nat
  tasks : List MPhase
  starts : List (Nat × ℚ)
  deriving Repr, DecidableEq

/-- The body of `SERPHandler._rate_limit_delay` (`serp_handler.py`, lines
76-87) as run by coroutine `i`, which is at the gate (phase `acquired`).
If `rate_limit > 0`, it reads `current_time` and `_last_request_time`; when
less than `1/rate_limit` has elapsed the coroutine suspends in
`asyncio.sleep(min_interval - time_since_last)` — crucially *without* having
written `_last_request_time`, which only happens after the sleep (line 87).
When no wait is needed, the read, the write of `_last_request_time` and the
start of the HTTP request happen in the same uninterrupted slice (there is
no `await` between them). -/
def paceStep (rate : ℚ) (s : MState) (i : Nat) : MState :=
  if 0 < rate then
    let minInterval := 1 / rate
    let timeSinceLast := s.now - s.last
    if timeSinceLast < minInterval then
      { s with tasks := s.tasks.set i (.sleeping (s.now + (minInterval - timeSinceLast))) }
    else
      { s with last := s.now
               tasks := s.tasks.set i .inFlight
               starts := s.starts ++ [(i, s.now)] }
  else
    { s with tasks := s.tasks.set i .inFlight
             starts := s.starts ++ [(i, s.now)] }

/-- One scheduler step.  Disabled actions (wrong phase, empty semaphore, a
wake time not yet reached, or a clock set into the past) leave the state
unchanged, so the step function is total.  `wake i` is the slice that
resumes coroutine `i` after its pacing sleep: it writes
`self._last_request_time = time.time()` (line 87) and issues the request —
again one uninterrupted slice, since `_rate_limit_delay` returns without a
further `await` and the next suspension point is the `session.post` call
itself. -/
def mstep (rate : ℚ) (s : MState) : MAction → MState
  | .advance t => if s.now ≤ t then { s with now := t } else s
  | .acquire i =>
    match s.tasks.get? i with
    | some .ready =>
      if 0 < s.sem then
        { s with sem := s.sem - 1, tasks := s.tasks.set i .acquired }
      else s
    | _ => s
  | .pace i =>
    match s.tasks.get? i with
    | some .acquired => paceStep rate s i
    | _ => s
  | .wake i =>
    match s.tasks.get? i with
    | some (.sleeping w) =>
      if w ≤ s.now then
        { s with last := s.now
                 tasks := s.tasks.set i .inFlight
                 starts := s.starts ++ [(i, s.now)] }
      else s
    | _ => s
  | .finish i =>
    match s.tasks.get? i with
    | some .inFlight => { s with sem := s.sem + 1, tasks := s.tasks.set i .done }
    | _ => s

/-- Initial state for a batch of `n` keywords with semaphore bound `C`
(`Semaphore(self.concurrent_requests)`, line 66) at wall-clock time `t0`:
`_last_request_time = 0` (line 67). -/
def minit (n C : Nat) (t0 : ℚ) : MState :=
  { now := t0, last := 0, sem := C, tasks := List.replicate n .ready, starts := [] }

/-- Execution of a schedule (an arbitrary interleaving chosen by the event
loop). -/
def mrun (rate : ℚ) (s : MState) (acts : List MAction) : MState :=
  acts.foldl (mstep rate) s

/-- Phases that hold a semaphore slot (inside the `async with` block). -/
def isHolder : MPhase → Bool
  | .acquired => true
  | .sleeping _ => true
  | .inFlight => true
  | _ => false

/-- Phases whose HTTP probe is currently in flight. -/
def isInFlight : MPhase → Bool
  | .inFlight => true
  | _ => false

/-- Number of probe requests in flight. -/
def inFlightCount (s : MState) : Nat := s.tasks.countP isInFlight

/-- Number of coroutines holding a semaphore slot. -/
def holderCount (s : MState) : Nat := s.tasks.countP isHolder

/-- Semaphore invariant: slots held plus slots free equals the bound. -/
def MInv (C : Nat) (s : MState) : Prop := s.sem + holderCount s = C

/-- Whether every pair of consecutive probe starts in the event log is at
least `interval` apart. -/
def startGapsAtLeast (interval : ℚ) : List (Nat × ℚ) → Bool
  | (_, t₁) :: (j, t₂) :: rest =>
    decide (interval ≤ t₂ - t₁) && startGapsAtLeast interval ((j, t₂) :: rest)
  | _ => true

/-- A concrete interleaving of three keyword coroutines with
`concurrent_requests = 2` and `rate_limit = 1` req/s: task 0 passes the gate
at `t = 1000` and finishes; tasks 1 and 2 then both read
`_last_request_time = 1000` in `_rate_limit_delay` *before either has
written it* (each is suspended in `asyncio.sleep` when the other reads), so
both sleep until `t = 1001` and both start their probe at `t = 1001`. -/
def c2Schedule : List MAction :=
  [.acquire 0, .pace 0, .finish 0, .acquire 1, .acquire 2,
   .pace 1, .pace 2, .advance 1001, .wake 1, .wake 2]

/-! ## Data model of the Django pipeline

Embedding of `backend/aio_analyzer/apps/analysis/models.py` (the fields the
orchestration logic reads and writes; timestamps and free-text fields that
no claim concerns are omitted) and of the Celery tasks in
`backend/aio_analyzer/apps/analysis/tasks.py`.  The ORM store for one
project is modelled as a list of keyword records; external collaborators
(GSC, Google Ads, SERP) are abstracted to the row sets they return. -/

/-- One row of the GSC extraction result frame (`tasks.py`, lines 102-112). -/
structure GscRow where
  query : String
  clicks : Nat
  impressions : Nat
  ctr : ℚ
  position : ℚ
  deriving Repr, DecidableEq

/-- One row of the Google Ads keyword-idea result frame (`tasks.py`, lines
254-265). -/
structure AdsRow where
  keyword_idea : String
  search_volume : Nat
  competition_level : String
  competition_index : ℚ
  low_top_of_page_bid_usd : ℚ
  high_top_of_page_bid_usd : ℚ
  deriving Repr, DecidableEq

/-- The `KeywordData` model (`models.py`, lines 155-238), unique per
(project, keyword); optional per-stage fields are `Option`s mirroring
`null=True`. -/
structure KeywordData where
  keyword : String
  source_type : String
  gsc_clicks : Option Nat := none
  gsc_impressions : Option Nat := none
  gsc_ctr : Option ℚ := none
  gsc_position : Option ℚ := none
  ads_search_volume : Option Nat := none
  ads_competition_level : Option String := none
  ads_competition_index : Option ℚ := none
  ads_low_bid : Option ℚ := none
  ads_high_bid : Option ℚ := none
  aio_verified : Option Bool := none
  aio_triggers : Option Bool := none
  deriving Repr, DecidableEq

/-- The `AnalysisProject` model (`models.py`, lines 19-92): status plus the
step and keyword counters with their model defaults (`total_steps = 4`,
`completed_steps = 0`). -/
structure AnalysisProject where
  status : String := "created"
  total_steps : Nat := 4
  completed_steps : Nat := 0
  total_keywords : Nat := 0
  aio_keywords : Nat := 0
  completion_percentage : ℚ := 0
  deriving Repr, DecidableEq

/-- The `AnalysisTask` model (`models.py`, lines 95-152). -/
structure AnalysisTask where
  task_type : String
  status : String := "pending"
  result_count : Nat := 0
  deriving Repr, DecidableEq

/-- The persisted state of one project: its row plus its keyword records. -/
structure PipelineState where
  project : AnalysisProject
  db : List KeywordData
  deriving Repr, DecidableEq

/-- `KeywordData.objects.get_or_create(project=..., keyword=kw,
defaults=...)`: returns the store and the `created` flag; an existing
record is returned untouched, otherwise the defaults row is inserted. -/
def get_or_create (db : List KeywordData) (kw : String) (defaults : KeywordData) :
    List KeywordData × Bool :=
  if db.any (fun r => r.keyword = kw) then (db, false) else (db ++ [defaults], true)

/-- The `defaults` dict of the extraction `get_or_create` (`tasks.py`,
lines 103-113). -/
def gscDefaults (row : GscRow) : KeywordData :=
  { keyword := row.query
    source_type := "gsc"
    gsc_clicks := some row.clicks
    gsc_impressions := some row.impressions
    gsc_ctr := some row.ctr
    gsc_position := some row.position }

/-- The per-row body of the extraction storage loop (`tasks.py`, lines
102-115): `get_or_create` with the GSC defaults, counting created rows;
existing records are not updated. -/
def gscStore (acc : List KeywordData × Nat) (row : GscRow) :
    List KeywordData × Nat :=
  let r := get_or_create acc.1 row.query (gscDefaults row)
  (r.1, acc.2 + if r.2 then 1 else 0)

/-- Embedding of the Celery task `extract_gsc_data` (`tasks.py`, lines
30-161), with the GSC response frame as input.  An empty frame completes
the task with a zero count and returns *before* the step counter and
`total_keywords` are updated (lines 86-93); otherwise each row is stored
via `get_or_create` (no update of existing records), then
`completed_steps += 1` and `total_keywords` is recounted (lines 134-137). -/
def extract_gsc_data (rows : List GscRow) (st : PipelineState) :
    PipelineState × AnalysisTask :=
  if rows.isEmpty then
    (st, { task_type := "gsc_extraction", status := "completed", result_count := 0 })
  else
    let res := rows.foldl gscStore (st.db, 0)
    let p := st.project
    ({ project :=
        { p with
          completed_steps := p.completed_steps + 1,
          total_keywords := res.1.length },
       db := res.1 },
     { task_type := "gsc_extraction", status := "completed", result_count := res.2 })

/-- The Ads-field assignment applied both as `defaults` and as the
existing-record update of the expansion task (`tasks.py`, lines 255-275). -/
def adsApply (row : AdsRow) (r : KeywordData) : KeywordData :=
  { r with ads_search_volume := some row.search_volume
           ads_competition_level := some row.competition_level
           ads_competition_index := some row.competition_index
           ads_low_bid := some row.low_top_of_page_bid_usd
           ads_high_bid := some row.high_top_of_page_bid_usd }

/-- The per-row body of the expansion storage loop (`tasks.py`, lines
254-277): `get_or_create` with Ads defaults; an already-existing record gets
its Ads fields overwritten, a created record bumps the created counter. -/
def adsStore (acc : List KeywordData × Nat) (row : AdsRow) :
    List KeywordData × Nat :=
  let r := get_or_create acc.1 row.keyword_idea
    (adsApply row { keyword := row.keyword_idea, source_type := "ads_expansion" })
  if r.2 then (r.1, acc.2 + 1)
  else (r.1.map (fun k => if k.keyword = row.keyword_idea then adsApply row k else k),
        acc.2)

/-- Embedding of the Celery task `expand_keywords` (`tasks.py`, lines
164-322), with the Ads keyword-idea frame as input.  No seed keywords, or
an empty expansion frame, completes with a zero count before the counters
are touched (lines 197-204, 238-245); otherwise rows are stored via
`get_or_create`, existing records get their Ads fields overwritten (lines
269-275, leaving the GSC and AIO fields alone), then `completed_steps += 1`
and `total_keywords` is recounted (lines 295-298). -/
def expand_keywords (expanded : List AdsRow) (st : PipelineState) :
    PipelineState × AnalysisTask :=
  let seeds := st.db.filter (fun r => r.source_type = "gsc")
  if seeds.isEmpty then
    (st, { task_type := "keyword_expansion", status := "completed", result_count := 0 })
  else if expanded.isEmpty then
    (st, { task_type := "keyword_expansion", status := "completed", result_count := 0 })
  else
    let res := expanded.foldl adsStore (st.db, 0)
    let p := st.project
    ({ project :=
        { p with
          completed_steps := p.completed_steps + 1,
          total_keywords := res.1.length },
       db := res.1 },
     { task_type := "keyword_expansion", status := "completed", result_count := res.2 })

/-- Embedding of the Celery task `validate_aio_triggers` (`tasks.py`, lines
325-484).  Only records with `aio_verified` NULL are selected (lines
353-356); none selected completes with a zero count before the SERP handler
is even configured (lines 358-365).  `apiOk` abstracts
`test_api_connection()`; its failure raises `ValueError`, marking the task
failed (lines 397-399, 470-477) — the returned flag records that the task
raised.  Otherwise every selected record gets `aio_verified = True` and
`aio_triggers = validation_results.get(keyword, False)` (lines 426-434),
then `completed_steps += 1` and `aio_keywords` is recounted (lines
453-459). -/
def validate_aio_triggers (apiOk : Bool) (validation_results : List (String × Bool))
    (st : PipelineState) : PipelineState × AnalysisTask × Bool :=
  let to_verify := st.db.filter (fun r => r.aio_verified.isNone)
  if to_verify.isEmpty then
    (st, { task_type := "aio_validation", status := "completed", result_count := 0 }, false)
  else if !apiOk then
    (st, { task_type := "aio_validation", status := "failed" }, true)
  else
    let db := st.db.map (fun r =>
      if r.aio_verified.isNone then
        { r with aio_verified := some true
                 aio_triggers := some (dictGetD validation_results r.keyword) }
      else r)
    let p := st.project
    ({ project :=
        { p with
          completed_steps := p.completed_steps + 1,
          aio_keywords := db.countP (fun r => r.aio_triggers = some true) },
       db := db },
     { task_type := "aio_validation", status := "completed",
       result_count := to_verify.length }, false)

/-- Modelled from the spec: the reporting Celery task
`generate_comprehensive_report` lives in
`backend/aio_analyzer/apps/reports/tasks.py`, which is imported by
`run_complete_analysis` (`tasks.py`, line 556) but is not under src/.  Per
spec section 4.1, a successful reporting stage marks its StageTask
completed and advances the Project's step counter; following section 4.1
item 5 and the uniform pattern of the three sibling tasks in `tasks.py`, an
empty input yields a zero-count completed task without touching the
counters. -/
def generate_comprehensive_report (st : PipelineState) :
    PipelineState × AnalysisTask :=
  if st.db.isEmpty then
    (st, { task_type := "report_generation", status := "completed", result_count := 0 })
  else
    let p := st.project
    ({ st with project := { p with completed_steps := p.completed_steps + 1 } },
     { task_type := "report_generation", status := "completed",
       result_count := st.db.length })

/-- Result of one `run_complete_analysis` orchestration: final state, the
four task rows, the list of stage tasks actually dispatched (each
`<task>.delay(...)` followed by `.get()`, lines 540-559), and the project's
`completed_steps` value after each dispatched stage. -/
structure PipelineRun where
  state : PipelineState
  tasks : List AnalysisTask
  invoked : List String
  steps_trace : List Nat
  deriving Repr, DecidableEq

/-- Embedding of the orchestrator `run_complete_analysis` (`tasks.py`,
lines 487-583).  It marks the project running, then dispatches M1, M2, M3
and M4 strictly in sequence with no emptiness checks of its own — each
`.get()` waits for the stage; a stage that raises (here only M3, through
`apiOk = false`) propagates through `.get()` into the `except` branch,
which marks the project failed (lines 575-583) without resetting
`completed_steps`.  When all four stages return, the project is marked
completed with `completion_percentage = 100` (lines 561-565). -/
def run_complete_analysis (rows : List GscRow) (expanded : List AdsRow)
    (apiOk : Bool) (validation_results : List (String × Bool))
    (st : PipelineState) : PipelineRun :=
  let st0 : PipelineState := { st with project := { st.project with status := "running" } }
  let e := extract_gsc_data rows st0
  let x := expand_keywords expanded e.1
  let v := validate_aio_triggers apiOk validation_results x.1
  if v.2.2 then
    { state := { v.1 with project := { v.1.project with status := "failed" } },
      tasks := [e.2, x.2, v.2.1],
      invoked := ["gsc_extraction", "keyword_expansion", "aio_validation"],
      steps_trace := [e.1.project.completed_steps, x.1.project.completed_steps,
                      v.1.project.completed_steps] }
  else
    let rep := generate_comprehensive_report v.1
    { state :=
        { rep.1 with
          project :=
            { rep.1.project with
              status := "completed",
              completion_percentage := 100 } },
      tasks := [e.2, x.2, v.2.1, rep.2],
      invoked := ["gsc_extraction", "keyword_expansion", "aio_validation",
                  "report_generation"],
      steps_trace := [e.1.project.completed_steps, x.1.project.completed_steps,
                      v.1.project.completed_steps, rep.1.project.completed_steps] }

/-- A freshly created project with an empty keyword store. -/
def freshState : PipelineState :=
  { project := {}, db := [] }

/-- GSC rows for the re-run scenario: one seed keyword. -/
def c8Rows : List GscRow :=
  [{ query := "k1", clicks := 1, impressions := 10, ctr := 0, position := 0 }]

/-- Ads rows for the re-run scenario: one expanded keyword. -/
def c8Ads : List AdsRow :=
  [{ keyword_idea := "k2", search_volume := 10, competition_level := "LOW",
     competition_index := 0, low_top_of_page_bid_usd := 0,
     high_top_of_page_bid_usd := 0 }]

/-- First orchestration run: extraction and expansion succeed, validation
fails its API-connection test and exhausts its retries, so the project ends
failed with `completed_steps = 2`. -/
def c8Run1 : PipelineRun :=
  run_complete_analysis c8Rows c8Ads false [] freshState

/-- Re-run of the failed project with the SERP API reachable again. -/
def c8Run2 : PipelineRun :=
  run_complete_analysis c8Rows c8Ads true [("k1", true), ("k2", false)] c8Run1.state

/-- A keyword record that has already been validated in an earlier run. -/
def c7Rec : KeywordData :=
  { keyword := "k1", source_type := "gsc", aio_verified := some true,
    aio_triggers := some false }

/-- A project state whose store holds one already-validated keyword. -/
def c7State : PipelineState :=
  { project := {}, db := [c7Rec] }

/-! ## Lemmas about the dict embedding -/

theorem dictLookup_dictInsert (k : String) (v : Bool) (a : String) :
    ∀ m : List (String × Bool),
      dictLookup (dictInsert m k v) a = if a = k then some v else dictLookup m a
  | [] => by
    simp only [dictInsert, dictLookup]
    by_cases h : k = a
    · subst h
      simp
    · rw [if_neg h, if_neg fun hh => h hh.symm]
  | (k₁, v₁) :: t => by
    by_cases h : k₁ = k
    · subst h
      by_cases ha : a = k₁
      · subst ha
        simp [dictInsert, dictLookup]
      · have ha' : ¬k₁ = a := fun hh => ha hh.symm
        simp [dictInsert, dictLookup, ha, ha']
    · have ih := dictLookup_dictInsert k v a t
      by_cases ha : a = k
      · subst ha
        have hk₁ : ¬k₁ = a := h
        simp [dictInsert, dictLookup, h, hk₁, ih]
      · by_cases ha₁ : k₁ = a
        · simp [dictInsert, dictLookup, h, ha₁, ha, ih]
        · simp [dictInsert, dictLookup, h, ha₁, ha, ih]

theorem mem_keys_dictInsert (k : String) (v : Bool) (a : String) :
    ∀ m : List (String × Bool),
      (a ∈ (dictInsert m k v).map Prod.fst ↔ a = k ∨ a ∈ m.map Prod.fst)
  | [] => by simp [dictInsert]
  | (k₁, v₁) :: t => by
    by_cases h : k₁ = k
    · subst h
      have he : dictInsert ((k₁, v₁) :: t) k₁ v = (k₁, v) :: t := by
        simp [dictInsert]
      rw [he]
      simp only [List.map_cons, List.mem_cons]
      tauto
    · have ih := mem_keys_dictInsert k v a t
      have he : dictInsert ((k₁, v₁) :: t) k v = (k₁, v₁) :: dictInsert t k v := by
        simp [dictInsert, h]
      rw [he]
      simp only [List.map_cons, List.mem_cons, ih]
      tauto

theorem nodup_keys_dictInsert (k : String) (v : Bool) :
    ∀ m : List (String × Bool), (m.map Prod.fst).Nodup →
      ((dictInsert m k v).map Prod.fst).Nodup
  | [], _ => by simp [dictInsert]
  | (k₁, v₁) :: t, h => by
    simp only [List.map_cons, List.nodup_cons] at h
    by_cases hk : k₁ = k
    · subst hk
      simpa [dictInsert] using h
    · have ih := nodup_keys_dictInsert k v t h.2
    
      simp only [dictInsert, if_neg hk, List.map_cons, List.nodup_cons]
      refine ⟨?_, ih⟩
      rw [mem_keys_dictInsert]
      rintro (rfl | hmem)
      · exact hk rfl
      · exact h.1 hmem

/-! ## Lemmas about the result loop of `batch_validate_aio` -/

theorem fold_dict_lookup_isSome (probe : Nat → String → SERPResult) (a : String) :
    ∀ (l : List (Nat × String)) (m : List (String × Bool)),
      ((dictLookup (l.foldl (fun m p => dictInsert m p.2 (probe p.1 p.2).has_aio) m) a).isSome
        ↔ (dictLookup m a).isSome ∨ a ∈ l.map Prod.snd)
  | [], m => by simp
  | p :: t, m => by
    rw [List.foldl_cons, fold_dict_lookup_isSome probe a t]
    rw [dictLookup_dictInsert]
    by_cases hap : a = p.2 <;> simp [hap]

theorem fold_dict_keys_nodup (probe : Nat → String → SERPResult) :
    ∀ (l : List (Nat × String)) (m : List (String × Bool)),
      (m.map Prod.fst).Nodup →
      ((l.foldl (fun m p => dictInsert m p.2 (probe p.1 p.2).has_aio) m).map Prod.fst).Nodup
  | [], _, h => h
  | p :: t, m, h => by
    rw [List.foldl_cons]
    exact fold_dict_keys_nodup probe t _ (nodup_keys_dictInsert p.2 _ m h)

theorem fold_dict_lookup_last (probe : Nat → String → SERPResult) (w : String) :
    ∀ (l : List (Nat × String)) (m : List (String × Bool)),
      dictLookup (l.foldl (fun m p => dictInsert m p.2 (probe p.1 p.2).has_aio) m) w =
        match l.reverse.find? (fun p => p.2 == w) with
        | some p => some (probe p.1 p.2).has_aio
        | none => dictLookup m w
  | [], m => by simp
  | p :: t, m => by
    rw [List.foldl_cons, fold_dict_lookup_last probe w t]
    rw [List.reverse_cons, List.find?_append]
    cases hfind : t.reverse.find? (fun q => q.2 == w) with
    | some q => simp [hfind]
    | none =>
      simp only [hfind, Option.none_or]
      rw [dictLookup_dictInsert]
      by_cases hw : (p.2 == w) = true
      · have hpw : p.2 = w := by simpa using hw
        subst hpw
        simp [List.find?_cons, hw]
      · have hwf : (p.2 == w) = false := by simpa using hw
        have hne : ¬w = p.2 := by
          intro hh
          subst hh
          simp at hwf
        simp [List.find?_cons, hwf, hne]

/-- Every input keyword has an entry in the returned dict, and only input
keywords do. -/
theorem batch_keys_isSome_iff (kws : List String)
    (probe : Nat → String → SERPResult) (k : String) :
    (dictLookup (batch_validate_aio kws probe) k).isSome ↔ k ∈ kws := by
  unfold batch_validate_aio batch_validate_run
  by_cases h : kws = []
  · subst h
    simp [dictLookup]
  · rw [if_neg h]
    simp only
    rw [fold_dict_lookup_isSome]
    simp [List.enum_map_snd, dictLookup]

/-- The returned dict has no duplicated keys. -/
theorem batch_keys_nodup (kws : List String) (probe : Nat → String → SERPResult) :
    ((batch_validate_aio kws probe).map Prod.fst).Nodup := by
  unfold batch_validate_aio batch_validate_run
  by_cases h : kws = []
  · subst h
    simp
  · rw [if_neg h]
    simp only
    exact fold_dict_keys_nodup probe kws.enum [] (by simp)

/-- The dict entry of keyword `w` is the outcome of the probe of the last
occurrence of `w` in the input list. -/
theorem batch_lookup_last (kws : List String) (probe : Nat → String → SERPResult)
    (w : String) (i : Nat) (h : lastOccurrenceIdx kws w = some i) :
    dictLookup (batch_validate_aio kws probe) w = some (probe i w).has_aio := by
  unfold lastOccurrenceIdx at h
  obtain ⟨p, hp, hpi⟩ := Option.map_eq_some'.mp h
  have hpw : p.2 = w := by simpa using List.find?_some hp
  have hne : kws ≠ [] := by
    rintro rfl
    simp at hp
  obtain ⟨pi, pw⟩ := p
  simp only at hpi hpw
  subst hpi
  subst hpw
  unfold batch_validate_aio batch_validate_run
  rw [if_neg hne]
  simp only
  rw [fold_dict_lookup_last probe pw kws.enum [], hp]

/-- A keyword occurring in the input list has a last occurrence. -/
theorem lastOccurrenceIdx_isSome (kws : List String) (w : String) (h : w ∈ kws) :
    ∃ i, lastOccurrenceIdx kws w = some i := by
  have hmem : w ∈ kws.enum.map Prod.snd := by
    rw [List.enum_map_snd]
    exact h
  obtain ⟨p, hp, hpw⟩ := List.mem_map.mp hmem
  have : (kws.enum.reverse.find? (fun q => q.2 == w)).isSome := by
    rw [List.find?_isSome]
    exact ⟨p, by simpa using hp, by simp [hpw]⟩
  obtain ⟨q, hq⟩ := Option.isSome_iff_exists.mp this
  exact ⟨q.1, by simp [lastOccurrenceIdx, hq]⟩

/-! ## Lemmas about the interleaving model -/

theorem countP_set_get? (p : MPhase → Bool) :
    ∀ (l : List MPhase) (i : Nat) (x y : MPhase), l.get? i = some y →
      (l.set i x).countP p + (if p y then 1 else 0) =
        l.countP p + (if p x then 1 else 0)
  | [], i, x, y, h => by simp at h
  | a :: t, 0, x, y, h => by
    simp only [List.get?_cons_zero, Option.some.injEq] at h
    subst h
    simp only [List.set_cons_zero, List.countP_cons]
    ring
  | a :: t, i + 1, x, y, h => by
    simp only [List.get?_cons_succ] at h
    have ih := countP_set_get? p t i x y h
    simp only [List.set_cons_succ, List.countP_cons]
    omega

theorem countP_set_same (p : MPhase → Bool) (l : List MPhase) (i : Nat)
    (x y : MPhase) (h : l.get? i = some y) (hxy : p x = p y) :
    (l.set i x).countP p = l.countP p := by
  have hc := countP_set_get? p l i x y h
  rw [hxy] at hc
  omega

theorem minv_step (C : Nat) (rate : ℚ) (s : MState) (a : MAction)
    (h : MInv C s) : MInv C (mstep rate s a) := by
  cases a with
  | advance t =>
    simp only [mstep]
    split <;> simpa [MInv, holderCount] using h
  | acquire i =>
    simp only [mstep]
    split
    case _ heq =>
      split
      case isTrue hsem =>
        have hc := countP_set_get? isHolder s.tasks i .acquired .ready heq
        simp [isHolder] at hc
        simp only [MInv, holderCount] at h ⊢
        omega
      case isFalse => exact h
    all_goals exact h
  | pace i =>
    simp only [mstep]
    split
    case _ heq =>
      simp only [paceStep]
      split
      · split
        · simp only [MInv, holderCount] at h ⊢
          rw [countP_set_same isHolder s.tasks i _ .acquired heq (by simp [isHolder])]
          exact h
        · simp only [MInv, holderCount] at h ⊢
          rw [countP_set_same isHolder s.tasks i _ .acquired heq (by simp [isHolder])]
          exact h
      · simp only [MInv, holderCount] at h ⊢
        rw [countP_set_same isHolder s.tasks i _ .acquired heq (by simp [isHolder])]
        exact h
    all_goals exact h
  | wake i =>
    simp only [mstep]
    split
    case _ w heq =>
      split
      case isTrue =>
        have hc := countP_set_get? isHolder s.tasks i .inFlight (.sleeping w) heq
        simp [isHolder] at hc
        simp only [MInv, holderCount] at h ⊢
        omega
      case isFalse => exact h
    all_goals exact h
  | finish i =>
    simp only [mstep]
    split
    case _ heq =>
      have hc := countP_set_get? isHolder s.tasks i .done .inFlight heq
      simp [isHolder] at hc
      simp only [MInv, holderCount] at h ⊢
      omega
    all_goals exact h

theorem minv_run (C : Nat) (rate : ℚ) (acts : List MAction) :
    ∀ s : MState, MInv C s → MInv C (mrun rate s acts) := by
  induction acts with
  | nil => intro s h; exact h
  | cons a t ih =>
    intro s h
    exact ih (mstep rate s a) (minv_step C rate s a h)

theorem countP_inFlight_le_holder (l : List MPhase) :
    l.countP isInFlight ≤ l.countP isHolder := by
  induction l with
  | nil => simp
  | cons a t ih =>
    simp only [List.countP_cons]
    cases a <;> simp [isInFlight, isHolder] <;> omega

theorem holderCount_minit (n C : Nat) (t0 : ℚ) : holderCount (minit n C t0) = 0 := by
  simp only [holderCount, minit]
  induction n with
  | zero => simp
  | succ m ih => simp [List.replicate_succ, List.countP_cons, isHolder, ih]

/-! ## Lemmas about `_make_serp_request` -/

theorem requestAttempts_all_rateLimited (cfg : SerpConfig) :
    ∀ (i : Nat) (l : List Attempt),
      (∀ a ∈ l, ∃ ra, a = Attempt.rateLimited ra) →
      (requestAttempts cfg i l).1 = none
  | _, [], _ => rfl
  | i, a :: rest, h => by
    obtain ⟨ra, rfl⟩ := h a (List.mem_cons_self a rest)
    have ih := requestAttempts_all_rateLimited cfg (i + 1) rest
      (fun b hb => h b (List.mem_cons_of_mem _ hb))
    simp [requestAttempts, ih]

theorem make_serp_request_exhausted (cfg : SerpConfig) (keyword : String)
    (attempts : List Attempt)
    (hfail : ∀ a ∈ attempts, ∃ ra, a = Attempt.rateLimited ra) :
    (make_serp_request cfg keyword attempts).1 = exhaustedResult cfg keyword := by
  have h0 := requestAttempts_all_rateLimited cfg 0 (attempts.take cfg.retry_attempts)
    (fun a ha => hfail a (List.take_subset _ _ ha))
  simp [make_serp_request, h0]

/-! ## Claim theorems for the batch validation engine -/

/-- C1: the map returned by `batch_validate_aio` contains exactly one entry
per distinct input keyword — every input keyword is a key (none is dropped
even when its probe fails, since `_make_serp_request` always returns a
`SERPResult`), no extra keys appear, no key is duplicated — and the empty
input list yields the empty map. -/
theorem c1_batch_validate_key_set (kws : List String)
    (probe : Nat → String → SERPResult) :
    (∀ k, (dictLookup (batch_validate_aio kws probe) k).isSome ↔ k ∈ kws)
    ∧ ((batch_validate_aio kws probe).map Prod.fst).Nodup
    ∧ batch_validate_aio [] probe = [] :=
  ⟨fun k => batch_keys_isSome_iff kws probe k, batch_keys_nodup kws probe, rfl⟩

/-- C2: evidence that the pacing gate is racy.  With `rate_limit = 1` req/s
and `concurrent_requests = 2`, the interleaving `c2Schedule` — coroutines 1
and 2 both execute the read phase of `_rate_limit_delay` before either has
written `_last_request_time`, which the unlocked read/sleep/write sequence
of lines 76-87 permits — yields probe starts at times 1000, 1001 and 1001:
two consecutive starts are 0 < 1/R apart, so the rate bound is violated and
the read-wait-update is not an indivisible operation. -/
theorem c2_rate_gate_race :
    (mrun 1 (minit 3 2 1000) c2Schedule).starts = [(0, 1000), (1, 1001), (2, 1001)]
    ∧ startGapsAtLeast (1 / 1) (mrun 1 (minit 3 2 1000) c2Schedule).starts = false := by
  have h : (mrun 1 (minit 3 2 1000) c2Schedule).starts
      = [(0, 1000), (1, 1001), (2, 1001)] := by
    norm_num [mrun, minit, c2Schedule, mstep, paceStep, List.replicate, List.foldl]
  refine ⟨h, ?_⟩
  rw [h]
  norm_num [startGapsAtLeast]

/-- C3: under every interleaving of the batch's coroutines, at most
`concurrent_requests` probes are in flight at any instant — the semaphore
admission gate of lines 66 and 102 never admits more than `C` holders, and a
probe only starts once its coroutine holds a slot. -/
theorem c3_concurrency_bound (rate : ℚ) (n C : Nat) (t0 : ℚ)
    (acts : List MAction) :
    inFlightCount (mrun rate (minit n C t0) acts) ≤ C := by
  have h0 : MInv C (minit n C t0) := by
    unfold MInv
    rw [holderCount_minit]
    simp [minit]
  have h1 := minv_run C rate acts (minit n C t0) h0
  have h2 := countP_inFlight_le_holder (mrun rate (minit n C t0) acts).tasks
  simp only [MInv, holderCount] at h1
  simp only [inFlightCount]
  omega

/-- C5: a keyword whose probe is rate-limited on every attempt (up to and
beyond the retry budget) yields a result with `has_aio = false` and the
error field set, no exception escapes (`_make_serp_request` returns the
fallback result of lines 179-183), its map entry is `false`, and the batch
still returns an entry for every input keyword. -/
theorem c5_retry_exhaustion_isolated (cfg : SerpConfig) (kws : List String)
    (probe : Nat → String → SERPResult) (w : String) (attempts : List Attempt)
    (hfail : ∀ a ∈ attempts, ∃ ra, a = Attempt.rateLimited ra)
    (hprobe : ∀ i, probe i w = (make_serp_request cfg w attempts).1)
    (hw : w ∈ kws) :
    (make_serp_request cfg w attempts).1.has_aio = false
    ∧ (make_serp_request cfg w attempts).1.error.isSome
    ∧ dictLookup (batch_validate_aio kws probe) w = some false
    ∧ ∀ k ∈ kws, (dictLookup (batch_validate_aio kws probe) k).isSome := by
  have hex := make_serp_request_exhausted cfg w attempts hfail
  refine ⟨by rw [hex]; simp [exhaustedResult], by rw [hex]; rfl, ?_, ?_⟩
  · obtain ⟨i, hi⟩ := lastOccurrenceIdx_isSome kws w hw
    rw [batch_lookup_last kws probe w i hi, hprobe i, hex]
    simp [exhaustedResult]
  · intro k hk
    exact (batch_keys_isSome_iff kws probe k).mpr hk

/-- C5 witness: a concrete two-keyword batch in which "fail" is rate-limited
on both of its two attempts while "ok" succeeds. -/
theorem c5_retry_exhaustion_isolated_witness :
    (make_serp_request c5Cfg "fail" c5Attempts).1.has_aio = false
    ∧ (make_serp_request c5Cfg "fail" c5Attempts).1.error.isSome
    ∧ dictLookup (batch_validate_aio ["ok", "fail"] c5Probe) "fail" = some false
    ∧ ∀ k ∈ ["ok", "fail"],
        (dictLookup (batch_validate_aio ["ok", "fail"] c5Probe) k).isSome :=
  c5_retry_exhaustion_isolated c5Cfg ["ok", "fail"] c5Probe "fail" c5Attempts
    (by
      intro a ha
      rcases List.mem_cons.mp ha with rfl | ha
      · exact ⟨none, rfl⟩
      · rcases List.mem_cons.mp ha with rfl | ha
        · exact ⟨some 7, rfl⟩
        · cases ha)
    (fun i => by simp [c5Probe])
    (by decide)

/-- C6 (amended): a 429 response carrying a `Retry-After` hint makes the
client sleep the hinted duration, and then — on any attempt that is not the
last — *additionally* sleep the configured linear backoff
`retry_delay * (attempt + 1)` before retrying: the hint is honoured as an
extra wait, not instead of the configured per-attempt delay. -/
theorem c6_retry_after_hint_then_backoff (cfg : SerpConfig) (kw : String)
    (hint : Nat) (rest : List Attempt) (hN : 2 ≤ cfg.retry_attempts) :
    (make_serp_request cfg kw (Attempt.rateLimited (some hint) :: rest)).2.take 2 =
      [hint, cfg.retry_delay * 1] := by
  obtain ⟨n, hn⟩ : ∃ n, cfg.retry_attempts = n + 2 := ⟨cfg.retry_attempts - 2, by omega⟩
  simp only [make_serp_request]
  rw [hn, List.take_succ_cons]
  simp only [requestAttempts]
  rw [if_pos (by omega : 0 < cfg.retry_attempts - 1)]
  simp [List.take_succ_cons]

/-- C6 witness: two attempts, base delay 1, first attempt 429 with hint 5. -/
theorem c6_retry_after_hint_then_backoff_witness :
    2 ≤ c5Cfg.retry_attempts
    ∧ (make_serp_request c5Cfg "kw"
        (Attempt.rateLimited (some 5) :: [Attempt.ok sampleOk])).2.take 2 =
        [5, c5Cfg.retry_delay * 1] :=
  ⟨by decide,
   c6_retry_after_hint_then_backoff c5Cfg "kw" 5 [Attempt.ok sampleOk] (by decide)⟩

/-- C6 counterexample: with two attempts and `retry_delay = 1`, a first
attempt answered 429 with hint 5 and a successful second attempt produce the
sleep sequence `[5, 1]`, not `[5]`: the configured per-attempt delay
`retry_delay * 1` is slept in addition to the hint, so the hint is not
honoured "instead of" the configured backoff. -/
theorem c6_counterexample_backoff_also_slept :
    (make_serp_request { retry_attempts := 2, retry_delay := 1 } "kw"
        [Attempt.rateLimited (some 5), Attempt.ok sampleOk]).2 = [5, 1]
    ∧ ([5, 1] : List Nat) ≠ [5] :=
  ⟨rfl, by decide⟩

/-- C9: the aggregation formula yields 0 when nothing was validated (no
division fault) and exactly 30 for 3 triggered out of 10 validated. -/
theorem c9_aggregator_percentage :
    (∀ n : Nat, aio_percentage n 0 = 0) ∧ aio_percentage 3 10 = 30 := by
  constructor
  · intro n
    simp [aio_percentage]
  · norm_num [aio_percentage]

/-- C10: `batch_validate_aio` spawns one probe task per list element, so a
keyword occurring k times in the input is probed k times, while its single
map entry carries the outcome of the occurrence processed last in the
result loop. -/
theorem c10_duplicates_probed_per_occurrence (kws : List String)
    (probe : Nat → String → SERPResult) (w : String) (i : Nat)
    (hw : lastOccurrenceIdx kws w = some i) :
    ((batch_validate_run kws probe).2.map Prod.snd).count w = kws.count w
    ∧ dictLookup (batch_validate_aio kws probe) w = some (probe i w).has_aio := by
  have hne : kws ≠ [] := by
    rintro rfl
    simp [lastOccurrenceIdx] at hw
  constructor
  · unfold batch_validate_run
    rw [if_neg hne]
    simp [List.enum_map_snd]
  · exact batch_lookup_last kws probe w i hw

/-- C10 witness: the keyword "a" occurs at positions 0 and 2 of a
three-element list; it is probed twice and its entry is the outcome of the
probe at index 2. -/
theorem c10_duplicates_probed_per_occurrence_witness :
    ((batch_validate_run ["a", "b", "a"] c10Probe).2.map Prod.snd).count "a" =
        (["a", "b", "a"] : List String).count "a"
    ∧ dictLookup (batch_validate_aio ["a", "b", "a"] c10Probe) "a" =
        some (c10Probe 2 "a").has_aio :=
  c10_duplicates_probed_per_occurrence ["a", "b", "a"] c10Probe "a" 2 (by decide)

/-! ## Lemmas about the pipeline storage loops -/

theorem gocFold_mem_mono :
    ∀ (rows : List GscRow) (db : List KeywordData) (cnt : Nat) (r : KeywordData),
      r ∈ db → r ∈ (rows.foldl gscStore (db, cnt)).1
  | [], _, _, _, h => h
  | row :: t, db, cnt, r, h => by
    rw [List.foldl_cons]
    simp only [gscStore, get_or_create]
    split
    · exact gocFold_mem_mono t db _ r h
    · exact gocFold_mem_mono t (db ++ [gscDefaults row]) _ r (List.mem_append_left _ h)

theorem gocFold_key_present :
    ∀ (rows : List GscRow) (db : List KeywordData) (cnt : Nat) (row : GscRow),
      row ∈ rows → ∃ r ∈ (rows.foldl gscStore (db, cnt)).1, r.keyword = row.query
  | [], _, _, _, h => absurd h (List.not_mem_nil _)
  | row₁ :: t, db, cnt, row, h => by
    rcases List.mem_cons.mp h with rfl | hmem
    · rw [List.foldl_cons]
      simp only [gscStore, get_or_create]
      split
      case isTrue hany =>
        obtain ⟨p, hp, hpk⟩ := List.any_eq_true.mp hany
        exact ⟨p, gocFold_mem_mono t db _ p hp, by simpa using hpk⟩
      case isFalse =>
        refine ⟨gscDefaults row, ?_, rfl⟩
        exact gocFold_mem_mono t _ _ _ (List.mem_append_right _ (List.mem_singleton.mpr rfl))
    · rw [List.foldl_cons]
      exact gocFold_key_present t _ _ row hmem

theorem gocFold_noop :
    ∀ (rows : List GscRow) (db : List KeywordData) (cnt : Nat),
      (∀ row ∈ rows, ∃ r ∈ db, r.keyword = row.query) →
      rows.foldl gscStore (db, cnt) = (db, cnt)
  | [], _, _, _ => rfl
  | row :: t, db, cnt, h => by
    obtain ⟨r, hr, hrk⟩ := h row (List.mem_cons_self row t)
    have hany : db.any (fun q => q.keyword = row.query) = true :=
      List.any_eq_true.mpr ⟨r, hr, by simp [hrk]⟩
    rw [List.foldl_cons]
    simp only [gscStore, get_or_create, hany, if_true]
    have ht := gocFold_noop t db cnt (fun q hq => h q (List.mem_cons_of_mem _ hq))
    simpa using ht

/-! ## Step-counter bounds for the pipeline stages -/

theorem extract_steps_le (rows : List GscRow) (st : PipelineState) :
    (extract_gsc_data rows st).1.project.completed_steps ≤
      st.project.completed_steps + 1 := by
  unfold extract_gsc_data
  split <;> simp

theorem expand_steps_le (expanded : List AdsRow) (st : PipelineState) :
    (expand_keywords expanded st).1.project.completed_steps ≤
      st.project.completed_steps + 1 := by
  simp only [expand_keywords]
  split
  · simp
  · split
    · simp
    · simp

theorem validate_steps_le (apiOk : Bool) (vr : List (String × Bool))
    (st : PipelineState) :
    (validate_aio_triggers apiOk vr st).1.project.completed_steps ≤
      st.project.completed_steps + 1 := by
  simp only [validate_aio_triggers]
  split
  · simp
  · split
    · simp
    · simp

theorem report_steps_le (st : PipelineState) :
    (generate_comprehensive_report st).1.project.completed_steps ≤
      st.project.completed_steps + 1 := by
  unfold generate_comprehensive_report
  split <;> simp

/-! ## Claim theorems for the pipeline orchestrator -/

/-- C4 (amended): when extraction returns zero rows, its task is completed
with a zero count and the project ends `completed` with `total_keywords = 0`,
but the remaining stages are still dispatched by `run_complete_analysis`:
each runs and completes as a zero-count no-op (none is skipped or marked
failed). -/
theorem c4_empty_extraction_completes_with_zero (expanded : List AdsRow)
    (apiOk : Bool) (vr : List (String × Bool)) :
    (run_complete_analysis [] expanded apiOk vr freshState).invoked =
      ["gsc_extraction", "keyword_expansion", "aio_validation", "report_generation"]
    ∧ (run_complete_analysis [] expanded apiOk vr freshState).tasks =
        [{ task_type := "gsc_extraction", status := "completed", result_count := 0 },
         { task_type := "keyword_expansion", status := "completed", result_count := 0 },
         { task_type := "aio_validation", status := "completed", result_count := 0 },
         { task_type := "report_generation", status := "completed", result_count := 0 }]
    ∧ (run_complete_analysis [] expanded apiOk vr freshState).state.project.status =
        "completed"
    ∧ (run_complete_analysis [] expanded apiOk vr
        freshState).state.project.total_keywords = 0 := by
  refine ⟨?_, ?_, ?_, ?_⟩ <;>
    simp [run_complete_analysis, extract_gsc_data, expand_keywords,
      validate_aio_triggers, generate_comprehensive_report, freshState]

/-- C4 counterexample: with zero extraction rows the orchestrator still
dispatches expansion, validation and reporting (the claim says they are
never invoked), even though the project does end `completed` with
`total_keywords = 0`. -/
theorem c4_counterexample_stages_still_invoked :
    (run_complete_analysis [] [] true [] freshState).invoked =
      ["gsc_extraction", "keyword_expansion", "aio_validation", "report_generation"]
    ∧ (run_complete_analysis [] [] true [] freshState).invoked ≠ ["gsc_extraction"]
    ∧ (run_complete_analysis [] [] true [] freshState).state.project.status =
        "completed"
    ∧ (run_complete_analysis [] [] true [] freshState).state.project.total_keywords
        = 0 := by
  refine ⟨?_, ?_, ?_, ?_⟩ <;>
    simp [run_complete_analysis, extract_gsc_data, expand_keywords,
      validate_aio_triggers, generate_comprehensive_report, freshState]

/-- C7: validation outcomes are write-once — the validation stage only
touches records whose `aio_verified` is NULL, so an already-validated record
passes through unchanged — and extraction is idempotent: running it a second
time with the same rows creates zero new records (get-or-create) and leaves
the store, including validated outcomes, unchanged. -/
theorem c7_write_once_and_idempotent (rows : List GscRow) (st : PipelineState)
    (apiOk : Bool) (vr : List (String × Bool)) :
    (extract_gsc_data rows (extract_gsc_data rows st).1).2.result_count = 0
    ∧ (extract_gsc_data rows (extract_gsc_data rows st).1).1.db =
        (extract_gsc_data rows st).1.db
    ∧ ∀ r ∈ st.db, r.aio_verified.isSome →
        r ∈ (validate_aio_triggers apiOk vr st).1.db := by
  refine ⟨?_, ?_, ?_⟩
  · by_cases hempty : rows.isEmpty
    · simp [extract_gsc_data, hempty]
    · have hbool : rows.isEmpty = false := by simpa using hempty
      simp only [extract_gsc_data, hbool, Bool.false_eq_true, if_false]
      rw [gocFold_noop rows _ 0
        (fun row hrow => gocFold_key_present rows st.db 0 row hrow)]
  · by_cases hempty : rows.isEmpty
    · simp [extract_gsc_data, hempty]
    · have hbool : rows.isEmpty = false := by simpa using hempty
      simp only [extract_gsc_data, hbool, Bool.false_eq_true, if_false]
      rw [gocFold_noop rows _ 0
        (fun row hrow => gocFold_key_present rows st.db 0 row hrow)]
  · intro r hr hsome
    simp only [validate_aio_triggers]
    split
    · exact hr
    · split
      · exact hr
      · refine List.mem_map.mpr ⟨r, hr, ?_⟩
        rw [if_neg]
        simp only [Option.isNone_iff_eq_none]
        exact Option.isSome_iff_ne_none.mp hsome

/-- C7 witness: a store holding one already-validated keyword; re-running
extraction with the same row creates nothing and the validated outcome
survives a validation run untouched. -/
theorem c7_write_once_and_idempotent_witness :
    (extract_gsc_data c8Rows (extract_gsc_data c8Rows c7State).1).2.result_count = 0
    ∧ c7Rec ∈ c7State.db
    ∧ c7Rec.aio_verified.isSome
    ∧ c7Rec ∈ (validate_aio_triggers true [("k1", true)] c7State).1.db :=
  ⟨(c7_write_once_and_idempotent c8Rows c7State true [("k1", true)]).1,
   by simp [c7State],
   by simp [c7Rec],
   (c7_write_once_and_idempotent c8Rows c7State true [("k1", true)]).2.2 c7Rec
     (by simp [c7State]) (by simp [c7Rec])⟩

/-- C8 (amended): for a single orchestration run starting from a fresh
project (`completed_steps = 0`), the step counter stays at or below
`total_steps = 4` after every stage; the bound does not survive re-running a
failed project, because `completed_steps` is never reset. -/
theorem c8_single_run_bound (rows : List GscRow) (expanded : List AdsRow)
    (apiOk : Bool) (vr : List (String × Bool)) (st : PipelineState)
    (h0 : st.project.completed_steps = 0) :
    (∀ x ∈ (run_complete_analysis rows expanded apiOk vr st).steps_trace, x ≤ 4)
    ∧ (run_complete_analysis rows expanded apiOk vr
        st).state.project.completed_steps ≤ 4 := by
  simp only [run_complete_analysis]
  set st0 : PipelineState :=
    { st with project := { st.project with status := "running" } } with hst0
  have h00 : st0.project.completed_steps = 0 := h0
  set e := extract_gsc_data rows st0 with he
  have h1 : e.1.project.completed_steps ≤ 1 := by
    have hb := extract_steps_le rows st0
    rw [← he] at hb
    omega
  set x := expand_keywords expanded e.1 with hx
  have h2 : x.1.project.completed_steps ≤ 2 := by
    have hb := expand_steps_le expanded e.1
    rw [← hx] at hb
    omega
  set v := validate_aio_triggers apiOk vr x.1 with hv
  have h3 : v.1.project.completed_steps ≤ 3 := by
    have hb := validate_steps_le apiOk vr x.1
    rw [← hv] at hb
    omega
  by_cases hr : v.2.2 = true
  · rw [if_pos hr]
    constructor
    · intro y hy
      simp at hy
      rcases hy with rfl | rfl | rfl <;> omega
    · simp
      omega
  · rw [if_neg hr]
    set rep := generate_comprehensive_report v.1 with hrep
    have h4 : rep.1.project.completed_steps ≤ 4 := by
      have hb := report_steps_le v.1
      rw [← hrep] at hb
      omega
    constructor
    · intro y hy
      simp at hy
      rcases hy with rfl | rfl | rfl | rfl <;> omega
    · simp
      omega

/-- C8 witness: one full successful run from a fresh project keeps every
step-counter value at or below 4. -/
theorem c8_single_run_bound_witness :
    freshState.project.completed_steps = 0
    ∧ (∀ x ∈ (run_complete_analysis c8Rows c8Ads true [("k1", true), ("k2", false)]
          freshState).steps_trace, x ≤ 4)
    ∧ (run_complete_analysis c8Rows c8Ads true [("k1", true), ("k2", false)]
        freshState).state.project.completed_steps ≤ 4 :=
  ⟨rfl,
   (c8_single_run_bound c8Rows c8Ads true [("k1", true), ("k2", false)]
      freshState rfl).1,
   (c8_single_run_bound c8Rows c8Ads true [("k1", true), ("k2", false)]
      freshState rfl).2⟩

/-- C8 counterexample: a run that fails in validation leaves the project
`failed` with `completed_steps = 2`; re-running the same (re-runnable)
project — which `run_complete_analysis` permits and never resets the
counter for — ends with `completed_steps = 6 > 4 = total_steps`, violating
the invariant. -/
theorem c8_counterexample_rerun_exceeds_total :
    c8Run1.state.project.status = "failed"
    ∧ c8Run1.state.project.completed_steps = 2
    ∧ c8Run2.state.project.total_steps = 4
    ∧ c8Run2.state.project.completed_steps = 6 :=
  ⟨rfl, rfl, rfl, rfl⟩

end AIO
